import Mathlib

/-!
Verification of the tunnel-multiplexer core of `server.py` (online-cli).

The shared process state of the server consists of three dictionaries
(`clients`, `port_map`, `pending`).  We embed each dictionary as an
association list with Python dict semantics (assignment overwrites the
key, `pop` removes it, lookup returns the first binding), and each
handler of `server.py` as a state-passing function:

* `registerStep`    — the `register` branch of `ws_handler` together with
  `assign_public_port_for_client` (validation, capacity check, port scan,
  registry updates, reply frame);
* `handleResponse`  — the `response` branch of `ws_handler`;
* `mintRequest` / `timeoutRequest` — the pending-registry effects of
  `proxy_handler` (future creation, and the `asyncio.TimeoutError` path);
* `cleanupClient`   — `cleanup_client`;
* `buildResponse`   — the response-building tail of `proxy_handler`
  (base64 body decode, hop-by-hop header strip, status default).

The OS bind probe of `port_is_free` is modelled as an oracle
`f : Nat → Bool` passed to the port scan.
-/

namespace OnlineCli

/-! ### Association lists with Python dict semantics -/

def lookupA {α β : Type} [DecidableEq α] (k : α) : List (α × β) → Option β
  | [] => Option.none
  | kv :: rest => if kv.1 = k then Option.some kv.2 else lookupA k rest

def eraseA {α β : Type} [DecidableEq α] (k : α) : List (α × β) → List (α × β)
  | [] => []
  | kv :: rest => if kv.1 = k then eraseA k rest else kv :: eraseA k rest

def insertA {α β : Type} [DecidableEq α] (k : α) (v : β) (m : List (α × β)) :
    List (α × β) :=
  (k, v) :: eraseA k m

theorem lookupA_insertA_self {α β : Type} [DecidableEq α] (k : α) (v : β)
    (m : List (α × β)) : lookupA k (insertA k v m) = Option.some v := by
  simp [insertA, lookupA]

theorem lookupA_eraseA_self {α β : Type} [DecidableEq α] (k : α)
    (m : List (α × β)) : lookupA k (eraseA k m) = Option.none := by
  induction m with
  | nil => rfl
  | cons kv rest ih =>
    by_cases h : kv.1 = k
    · simp [eraseA, h, ih]
    · simp [eraseA, h, lookupA, ih]

theorem lookupA_eraseA_ne {α β : Type} [DecidableEq α] {k q : α}
    (m : List (α × β)) (h : q ≠ k) : lookupA q (eraseA k m) = lookupA q m := by
  induction m with
  | nil => rfl
  | cons kv rest ih =>
    by_cases hk : kv.1 = k
    · have hq : kv.1 ≠ q := by rw [hk]; exact fun e => h e.symm
      rw [eraseA, if_pos hk, ih, lookupA, if_neg hq]
    · rw [eraseA, if_neg hk, lookupA, lookupA]
      by_cases hq : kv.1 = q
      · rw [if_pos hq, if_pos hq]
      · rw [if_neg hq, if_neg hq, ih]

theorem lookupA_insertA_ne {α β : Type} [DecidableEq α] {k q : α} (v : β)
    (m : List (α × β)) (h : q ≠ k) :
    lookupA q (insertA k v m) = lookupA q m := by
  have : k ≠ q := fun e => h e.symm
  simp [insertA, lookupA, this, lookupA_eraseA_ne m h]

theorem length_eraseA_le {α β : Type} [DecidableEq α] (k : α)
    (m : List (α × β)) : (eraseA k m).length ≤ m.length := by
  induction m with
  | nil => simp [eraseA]
  | cons kv rest ih =>
    by_cases h : kv.1 = k
    · simp [eraseA, h]; omega
    · simp [eraseA, h]; omega

theorem length_insertA_le {α β : Type} [DecidableEq α] (k : α) (v : β)
    (m : List (α × β)) : (insertA k v m).length ≤ m.length + 1 := by
  simp [insertA]
  exact length_eraseA_le k m

/-! ### Data model -/

/-- Configuration surface of the server (environment variables
`PUBLIC_PORT_START`, `PUBLIC_PORT_END`, `MAX_CLIENTS_PER_SERVER`). -/
structure Config where
  portStart : Nat
  portEnd : Nat
  maxClients : Nat
deriving DecidableEq

/-- The defaults of `server.py`: 5000, 5999, 100. -/
def defaultConfig : Config :=
  { portStart := 5000, portEnd := 5999, maxClients := 100 }

/-- The fields of a `clients[client_id]` entry that the shared registries
depend on.  The `ws`, `runner`, `site` handles and the two timestamps are
external resources with no influence on the registry logic. -/
structure ClientInfo where
  publicPort : Nat
  localPort : Int
deriving DecidableEq

/-- A `pending[request_id]` entry: the single-fire future created by
`proxy_handler`.  `owner` records which session (closure) created it;
`done` is the `fut.done()` flag checked by `ws_handler`. -/
structure PendingInfo where
  owner : String
  done : Bool
deriving DecidableEq

/-- The three process-global dictionaries of `server.py`. -/
structure ServerState where
  clients : List (String × ClientInfo)
  port_map : List (Nat × String)
  pending : List (String × PendingInfo)
deriving DecidableEq

def emptyState : ServerState := { clients := [], port_map := [], pending := [] }

/-- A JSON value as Python sees it, restricted to the shapes relevant to
`data.get("local_port")`. -/
inductive PyVal where
  | none
  | int (n : Int)
  | str (s : String)
  | bool (b : Bool)
deriving DecidableEq

/-- Python truthiness of a value. -/
def pyTruthy : PyVal → Bool
  | PyVal.none => false
  | PyVal.int n => decide (n ≠ 0)
  | PyVal.str s => decide (s ≠ "")
  | PyVal.bool b => b

/-- Python `isinstance(v, int)`; note `bool` is a subclass of `int`. -/
def pyIsInt : PyVal → Bool
  | PyVal.int _ => true
  | PyVal.bool _ => true
  | _ => false

/-- The integer a value stands for once it passed the `int` check. -/
def pyToInt : PyVal → Int
  | PyVal.int n => n
  | PyVal.bool b => if b then 1 else 0
  | _ => 0

/-- The validation of `ws_handler`:
`if not local_port or not isinstance(local_port, int)` rejects, so the
value is accepted iff it is truthy and an `int`. -/
def validLocal (v : PyVal) : Bool := pyTruthy v && pyIsInt v

/-- Outcome of a `register` frame as sent back on the control channel. -/
inductive RegResult where
  | invalidPort
  | atCapacity
  | exhausted
  | registered (p : Nat)
deriving DecidableEq

/-! ### Port allocation -/

/-- The loop body of `assign_public_port_for_client`: starting at `p`
with `fuel` candidates left, skip ports already in `port_map` and ports
the OS probe `f` reports busy, and return the first acceptable port. -/
def scanPorts (pm : List (Nat × String)) (f : Nat → Bool) :
    Nat → Nat → Option Nat
  | _, 0 => Option.none
  | p, fuel + 1 =>
    if lookupA p pm ≠ Option.none ∨ f p = false then scanPorts pm f (p + 1) fuel
    else Option.some p

/-- `for p in range(PUBLIC_PORT_START, PUBLIC_PORT_END + 1)`. -/
def firstFreePort (cfg : Config) (pm : List (Nat × String)) (f : Nat → Bool) :
    Option Nat :=
  scanPorts pm f cfg.portStart (cfg.portEnd + 1 - cfg.portStart)

/-- A parsed `response` frame as `ws_handler` hands it to the waiting
future: `resp.get("status", 200)`, `resp.get("headers", {})`,
`resp.get("body", "")` are the accesses `proxy_handler` performs, so we
keep the three fields optional. -/
structure RespFrame where
  status : Option Int
  headers : List (String × String)
  body : Option String
deriving DecidableEq

/-! ### Handlers -/

/-- The `register` branch of `ws_handler` composed with
`assign_public_port_for_client`: validate `local_port`, check capacity,
scan for a port, then update `clients` and `port_map` and reply. -/
def registerStep (cfg : Config) (s : ServerState) (cid : String) (v : PyVal)
    (f : Nat → Bool) : ServerState × RegResult :=
  if validLocal v = false then (s, RegResult.invalidPort)
  else if cfg.maxClients ≤ s.clients.length then (s, RegResult.atCapacity)
  else
    match firstFreePort cfg s.port_map f with
    | Option.none => (s, RegResult.exhausted)
    | Option.some p =>
      ({ clients := insertA cid { publicPort := p, localPort := pyToInt v } s.clients,
         port_map := insertA p cid s.port_map,
         pending := s.pending }, RegResult.registered p)

/-- The `response` branch of `ws_handler`.  `deliverCid` is the client id
of the channel the frame arrived on; the source never consults it:
dispatch is by `request_id` alone (`fut = pending.pop(rid, None)`).
Returns the updated state and, when a live waiter was resolved, the owner
of that waiter together with the payload handed to its future. -/
def handleResponse (s : ServerState) (deliverCid : String) (rid : String)
    (frame : RespFrame) : ServerState × Option (String × RespFrame) :=
  match lookupA rid s.pending with
  | Option.none => (s, Option.none)
  | Option.some info =>
    ({ s with pending := eraseA rid s.pending },
     if info.done then Option.none else Option.some (info.owner, frame))

/-- `proxy_handler` lines creating the future: `pending[rid] = fut`. -/
def mintRequest (s : ServerState) (owner rid : String) : ServerState :=
  { s with pending := insertA rid { owner := owner, done := false } s.pending }

/-- The `asyncio.TimeoutError` path of `proxy_handler`:
`pending.pop(rid, None)` followed by the 504 response. -/
def timeoutRequest (s : ServerState) (rid : String) : ServerState :=
  { s with pending := eraseA rid s.pending }

/-- `cleanup_client`: pop the session, and free its port when the port is
truthy (`if p`) and still indexed (`p in port_map`).  The `pending`
registry is not touched. -/
def cleanupClient (s : ServerState) (cid : String) : ServerState :=
  match lookupA cid s.clients with
  | Option.none => s
  | Option.some info =>
    if info.publicPort ≠ 0 ∧ lookupA info.publicPort s.port_map ≠ Option.none then
      { clients := eraseA cid s.clients,
        port_map := eraseA info.publicPort s.port_map,
        pending := s.pending }
    else
      { s with clients := eraseA cid s.clients }

/-! ### Response building in `proxy_handler` -/

/-- Value of a base64 alphabet character, as `base64.b64decode` maps it. -/
def b64val (c : Char) : Option Nat :=
  if 'A' ≤ c ∧ c ≤ 'Z' then Option.some (c.toNat - 65)
  else if 'a' ≤ c ∧ c ≤ 'z' then Option.some (c.toNat - 71)
  else if '0' ≤ c ∧ c ≤ '9' then Option.some (c.toNat + 4)
  else if c = '+' then Option.some 62
  else if c = '/' then Option.some 63
  else Option.none

/-- Decode base64 quantums of four characters into bytes, allowing `=`
padding only at the end; any other shape raises in Python and is `none`
here. -/
def decodeChunks : List Char → Option (List Nat)
  | [] => Option.some []
  | [a, b, '=', '='] => do
    let va ← b64val a
    let vb ← b64val b
    pure [va * 4 + vb / 16]
  | [a, b, c, '='] => do
    let va ← b64val a
    let vb ← b64val b
    let vc ← b64val c
    pure [va * 4 + vb / 16, (vb % 16) * 16 + vc / 4]
  | a :: b :: c :: d :: rest => do
    let va ← b64val a
    let vb ← b64val b
    let vc ← b64val c
    let vd ← b64val d
    let tail ← decodeChunks rest
    pure ([va * 4 + vb / 16, (vb % 16) * 16 + vc / 4, (vc % 4) * 64 + vd] ++ tail)
  | _ => Option.none

/-- `base64.b64decode` with the default `validate=False`: characters
outside the alphabet are discarded before decoding; a leftover group
that is not a full quantum is an error. -/
def b64decode (t : String) : Option (List Nat) :=
  decodeChunks (t.data.filter (fun c => (b64val c).isSome || c = '='))

/-- The body computed by `proxy_handler`:
`base64.b64decode(resp.get("body", "").encode()) if resp.get("body") else b""`,
where a decoding error raises (and the handler answers 502). -/
def respBody (r : RespFrame) : Option (List Nat) :=
  match r.body with
  | Option.none => Option.some []
  | Option.some b => if b = "" then Option.some [] else b64decode b

/-- The list iterated by the `headers.pop(h, None)` loop, in source
order. -/
def hopHeaders : List String :=
  ["Transfer-Encoding", "Content-Length", "Content-Encoding", "Connection"]

/-- The header sanitization of `proxy_handler`: one `dict.pop` per name
in `hopHeaders`.  `dict.pop` compares keys exactly, so the removal is
case-sensitive. -/
def stripHop (hs : List (String × String)) : List (String × String) :=
  hopHeaders.foldl (fun acc h => eraseA h acc) hs

/-- The HTTP response `proxy_handler` emits for a delivered frame. -/
structure HttpResponse where
  status : Int
  headers : List (String × String)
  body : List Nat
deriving DecidableEq

/-- The response-building tail of `proxy_handler`: decode the body
(`none` models the 502 path on a raised decode error), default the
status to 200, and strip the four transport-level headers. -/
def buildResponse (r : RespFrame) : Option HttpResponse :=
  (respBody r).map fun bs =>
    { status := (r.status).getD 200, headers := stripHop r.headers, body := bs }

theorem lookupA_stripHop (name : String) (hs : List (String × String)) :
    lookupA name (stripHop hs) =
      if name ∈ hopHeaders then Option.none else lookupA name hs := by
  have e : stripHop hs =
      eraseA "Connection" (eraseA "Content-Encoding"
        (eraseA "Content-Length" (eraseA "Transfer-Encoding" hs))) := rfl
  rw [e]
  by_cases h1 : name = "Connection"
  · subst h1
    simp [lookupA_eraseA_self, hopHeaders]
  · rw [lookupA_eraseA_ne _ h1]
    by_cases h2 : name = "Content-Encoding"
    · subst h2
      simp [lookupA_eraseA_self, hopHeaders]
    · rw [lookupA_eraseA_ne _ h2]
      by_cases h3 : name = "Content-Length"
      · subst h3
        simp [lookupA_eraseA_self, hopHeaders]
      · rw [lookupA_eraseA_ne _ h3]
        by_cases h4 : name = "Transfer-Encoding"
        · subst h4
          simp [lookupA_eraseA_self, hopHeaders]
        · rw [lookupA_eraseA_ne _ h4]
          have : ¬ name ∈ hopHeaders := by
            simp [hopHeaders, h1, h2, h3, h4]
          rw [if_neg this]

/-! ### Port-scan properties -/

theorem scanPorts_eq_some (pm : List (Nat × String)) (f : Nat → Bool) :
    ∀ (fuel start p : Nat), scanPorts pm f start fuel = Option.some p →
      start ≤ p ∧ p < start + fuel ∧ lookupA p pm = Option.none ∧ f p = true ∧
      ∀ q, start ≤ q → q < p → (lookupA q pm ≠ Option.none ∨ f q = false) := by
  intro fuel
  induction fuel with
  | zero => intro start p h; simp [scanPorts] at h
  | succ n ih =>
    intro start p h
    simp only [scanPorts] at h
    by_cases hc : lookupA start pm ≠ Option.none ∨ f start = false
    · rw [if_pos hc] at h
      obtain ⟨h1, h2, h3, h4, h5⟩ := ih (start + 1) p h
      refine ⟨by omega, by omega, h3, h4, ?_⟩
      intro q hq1 hq2
      by_cases he : q = start
      · rw [he]; exact hc
      · exact h5 q (by omega) hq2
    · rw [if_neg hc] at h
      have hp : start = p := by
        have := h; injection this
      rw [not_or] at hc
      obtain ⟨hA, hB⟩ := hc
      have hA2 : lookupA start pm = Option.none := not_not.mp hA
      have hB2 : f start = true := by
        cases hf : f start
        · exact absurd hf hB
        · rfl
      refine ⟨by omega, by omega, hp ▸ hA2, hp ▸ hB2, ?_⟩
      intro q hq1 hq2
      omega

theorem scanPorts_eq_none (pm : List (Nat × String)) (f : Nat → Bool) :
    ∀ (fuel start : Nat), scanPorts pm f start fuel = Option.none ↔
      ∀ q, start ≤ q → q < start + fuel →
        (lookupA q pm ≠ Option.none ∨ f q = false) := by
  intro fuel
  induction fuel with
  | zero =>
    intro start
    simp only [scanPorts]
    constructor
    · intro _ q h1 h2; omega
    · intro _; trivial
  | succ n ih =>
    intro start
    simp only [scanPorts]
    by_cases hc : lookupA start pm ≠ Option.none ∨ f start = false
    · rw [if_pos hc, ih (start + 1)]
      constructor
      · intro hall q h1 h2
        by_cases he : q = start
        · rw [he]; exact hc
        · exact hall q (by omega) (by omega)
      · intro hall q h1 h2
        exact hall q (by omega) (by omega)
    · rw [if_neg hc]
      constructor
      · intro h; exact absurd h (by simp)
      · intro hall
        exact absurd (hall start (Nat.le_refl start) (by omega)) hc

theorem firstFreePort_some (cfg : Config) (pm : List (Nat × String))
    (f : Nat → Bool) (p : Nat) (h : firstFreePort cfg pm f = Option.some p) :
    cfg.portStart ≤ p ∧ p ≤ cfg.portEnd ∧ lookupA p pm = Option.none ∧
    f p = true ∧
    ∀ q, cfg.portStart ≤ q → q < p → (lookupA q pm ≠ Option.none ∨ f q = false) := by
  obtain ⟨h1, h2, h3, h4, h5⟩ := scanPorts_eq_some pm f _ _ _ h
  exact ⟨h1, by omega, h3, h4, h5⟩

theorem firstFreePort_none (cfg : Config) (pm : List (Nat × String))
    (f : Nat → Bool) :
    firstFreePort cfg pm f = Option.none ↔
      ∀ q, cfg.portStart ≤ q → q ≤ cfg.portEnd →
        (lookupA q pm ≠ Option.none ∨ f q = false) := by
  rw [firstFreePort, scanPorts_eq_none]
  constructor
  · intro hall q h1 h2; exact hall q h1 (by omega)
  · intro hall q h1 h2; exact hall q h1 (by omega)

/-! ### Branch characterizations of the handlers -/

theorem registerStep_invalid (cfg : Config) (s : ServerState) (cid : String)
    (v : PyVal) (f : Nat → Bool) (hv : validLocal v = false) :
    registerStep cfg s cid v f = (s, RegResult.invalidPort) := by
  rw [registerStep, if_pos hv]

theorem registerStep_capacity (cfg : Config) (s : ServerState) (cid : String)
    (v : PyVal) (f : Nat → Bool) (hv : validLocal v = true)
    (hcap : cfg.maxClients ≤ s.clients.length) :
    registerStep cfg s cid v f = (s, RegResult.atCapacity) := by
  rw [registerStep, if_neg (by simp [hv]), if_pos hcap]

theorem registerStep_exhausted (cfg : Config) (s : ServerState) (cid : String)
    (v : PyVal) (f : Nat → Bool) (hv : validLocal v = true)
    (hcap : s.clients.length < cfg.maxClients)
    (hp : firstFreePort cfg s.port_map f = Option.none) :
    registerStep cfg s cid v f = (s, RegResult.exhausted) := by
  rw [registerStep, if_neg (by simp [hv]), if_neg (by omega), hp]

theorem registerStep_eq_some (cfg : Config) (s : ServerState) (cid : String)
    (v : PyVal) (f : Nat → Bool) (p : Nat) (hv : validLocal v = true)
    (hcap : s.clients.length < cfg.maxClients)
    (hp : firstFreePort cfg s.port_map f = Option.some p) :
    registerStep cfg s cid v f =
      ({ clients := insertA cid { publicPort := p, localPort := pyToInt v } s.clients,
         port_map := insertA p cid s.port_map,
         pending := s.pending }, RegResult.registered p) := by
  rw [registerStep, if_neg (by simp [hv]), if_neg (by omega), hp]

theorem cleanupClient_absent (s : ServerState) (cid : String)
    (h : lookupA cid s.clients = Option.none) : cleanupClient s cid = s := by
  rw [cleanupClient, h]

theorem cleanupClient_present (s : ServerState) (cid : String)
    (info : ClientInfo) (h : lookupA cid s.clients = Option.some info)
    (hpos : info.publicPort ≠ 0)
    (hpm : lookupA info.publicPort s.port_map ≠ Option.none) :
    cleanupClient s cid =
      { clients := eraseA cid s.clients,
        port_map := eraseA info.publicPort s.port_map,
        pending := s.pending } := by
  rw [cleanupClient, h]
  simp [hpos, hpm]

theorem cleanupClient_present_skip (s : ServerState) (cid : String)
    (info : ClientInfo) (h : lookupA cid s.clients = Option.some info)
    (hc : ¬(info.publicPort ≠ 0 ∧
            lookupA info.publicPort s.port_map ≠ Option.none)) :
    cleanupClient s cid = { s with clients := eraseA cid s.clients } := by
  rw [cleanupClient, h]
  simp [hc]

theorem cleanupClient_pending (s : ServerState) (cid : String) :
    (cleanupClient s cid).pending = s.pending := by
  cases hcl : lookupA cid s.clients with
  | none => rw [cleanupClient_absent s cid hcl]
  | some info =>
    by_cases hc : info.publicPort ≠ 0 ∧
        lookupA info.publicPort s.port_map ≠ Option.none
    · rw [cleanupClient_present s cid info hcl hc.1 hc.2]
    · rw [cleanupClient_present_skip s cid info hcl hc]

theorem cleanupClient_clients_eq (s : ServerState) (cid : String) :
    (cleanupClient s cid).clients = s.clients ∨
    (cleanupClient s cid).clients = eraseA cid s.clients := by
  cases hcl : lookupA cid s.clients with
  | none => exact Or.inl (by rw [cleanupClient_absent s cid hcl])
  | some info =>
    by_cases hc : info.publicPort ≠ 0 ∧
        lookupA info.publicPort s.port_map ≠ Option.none
    · exact Or.inr (by rw [cleanupClient_present s cid info hcl hc.1 hc.2])
    · exact Or.inr (by rw [cleanupClient_present_skip s cid info hcl hc])

theorem cleanupClient_lookup_none (s : ServerState) (cid : String) :
    lookupA cid (cleanupClient s cid).clients = Option.none := by
  cases hcl : lookupA cid s.clients with
  | none => rw [cleanupClient_absent s cid hcl]; exact hcl
  | some info =>
    by_cases hc : info.publicPort ≠ 0 ∧
        lookupA info.publicPort s.port_map ≠ Option.none
    · rw [cleanupClient_present s cid info hcl hc.1 hc.2]
      exact lookupA_eraseA_self cid s.clients
    · rw [cleanupClient_present_skip s cid info hcl hc]
      exact lookupA_eraseA_self cid s.clients

theorem handleResponse_fst_fields (s : ServerState) (cid rid : String)
    (frame : RespFrame) :
    (handleResponse s cid rid frame).1.clients = s.clients ∧
    (handleResponse s cid rid frame).1.port_map = s.port_map := by
  rw [handleResponse]
  cases lookupA rid s.pending <;> exact ⟨rfl, rfl⟩

theorem handleResponse_absent (s : ServerState) (cid rid : String)
    (frame : RespFrame) (h : lookupA rid s.pending = Option.none) :
    handleResponse s cid rid frame = (s, Option.none) := by
  rw [handleResponse, h]

theorem handleResponse_pending_gone (s : ServerState) (cid rid : String)
    (frame : RespFrame) :
    lookupA rid (handleResponse s cid rid frame).1.pending = Option.none := by
  rw [handleResponse]
  cases h : lookupA rid s.pending with
  | none => exact h
  | some info => exact lookupA_eraseA_self rid s.pending

/-! ### Operations and reachable states -/

/-- One atomic mutation of the shared registries, as driven by the event
loop: a `register` frame, the minting of a pending entry by an ingress
request, a `response` frame, an ingress timeout, and client cleanup. -/
inductive Op where
  | register (cid : String) (v : PyVal) (osFree : Nat → Bool)
  | mint (owner rid : String)
  | response (cid rid : String) (frame : RespFrame)
  | timeout (rid : String)
  | cleanup (cid : String)

def step (cfg : Config) (s : ServerState) : Op → ServerState
  | Op.register cid v f => (registerStep cfg s cid v f).1
  | Op.mint owner rid => mintRequest s owner rid
  | Op.response cid rid frame => (handleResponse s cid rid frame).1
  | Op.timeout rid => timeoutRequest s rid
  | Op.cleanup cid => cleanupClient s cid

def runOps (cfg : Config) : ServerState → List Op → ServerState
  | s, [] => s
  | s, op :: rest => runOps cfg (step cfg s op) rest

/-- `register` frames arrive with a fresh client id (in `server.py` a
session sends `register` before it is in `clients`); an operation list
satisfying `FreshAlong` never re-registers a live client id. -/
def freshOp (s : ServerState) : Op → Bool
  | Op.register cid _ _ => decide (lookupA cid s.clients = Option.none)
  | _ => true

def FreshAlong (cfg : Config) : ServerState → List Op → Bool
  | _, [] => true
  | s, op :: rest => freshOp s op && FreshAlong cfg (step cfg s op) rest

/-- The registry consistency invariant: `p` is a key of `port_map` iff a
live session owns `p` as its public port, and the index entry points to
exactly that session. -/
def Inv (s : ServerState) : Prop :=
  ∀ p c, lookupA p s.port_map = Option.some c ↔
    ∃ i, lookupA c s.clients = Option.some i ∧ i.publicPort = p

/-- Every live session holds a truthy (nonzero) public port; needed
because `cleanup_client` skips the `port_map` removal for a falsy port. -/
def PortsPos (s : ServerState) : Prop :=
  ∀ c i, lookupA c s.clients = Option.some i → 0 < i.publicPort

theorem inv_empty : Inv emptyState := by
  intro q c
  constructor
  · intro h; exact absurd h (by simp [emptyState, lookupA])
  · rintro ⟨i, hi, _⟩; exact absurd hi (by simp [emptyState, lookupA])

theorem portsPos_empty : PortsPos emptyState := by
  intro c i hi; exact absurd hi (by simp [emptyState, lookupA])

theorem inv_congr (s1 s2 : ServerState) (hc : s1.clients = s2.clients)
    (hp : s1.port_map = s2.port_map) (h : Inv s1) : Inv s2 := by
  intro q c; rw [← hp, ← hc]; exact h q c

theorem portsPos_congr (s1 s2 : ServerState) (hc : s1.clients = s2.clients)
    (h : PortsPos s1) : PortsPos s2 := by
  intro c i; rw [← hc]; exact h c i

theorem step_preserves_inv (cfg : Config) (h0 : 0 < cfg.portStart)
    (s : ServerState) (op : Op) (hInv : Inv s) (hPos : PortsPos s)
    (hf : freshOp s op = true) :
    Inv (step cfg s op) ∧ PortsPos (step cfg s op) := by
  cases op with
  | register cid v f =>
    have hfr : lookupA cid s.clients = Option.none := of_decide_eq_true hf
    by_cases hv : validLocal v = false
    · have e : step cfg s (Op.register cid v f) = s := by
        simp [step, registerStep_invalid cfg s cid v f hv]
      rw [e]; exact ⟨hInv, hPos⟩
    · have hv2 : validLocal v = true := by
        cases hb : validLocal v
        · exact absurd hb hv
        · rfl
      by_cases hcap : cfg.maxClients ≤ s.clients.length
      · have e : step cfg s (Op.register cid v f) = s := by
          simp [step, registerStep_capacity cfg s cid v f hv2 hcap]
        rw [e]; exact ⟨hInv, hPos⟩
      · cases hp : firstFreePort cfg s.port_map f with
        | none =>
          have e : step cfg s (Op.register cid v f) = s := by
            simp [step, registerStep_exhausted cfg s cid v f hv2 (by omega) hp]
          rw [e]; exact ⟨hInv, hPos⟩
        | some p =>
          obtain ⟨hp1, hp2, hp3, hp4, hp5⟩ := firstFreePort_some cfg s.port_map f p hp
          have e : step cfg s (Op.register cid v f) =
              { clients := insertA cid { publicPort := p, localPort := pyToInt v } s.clients,
                port_map := insertA p cid s.port_map,
                pending := s.pending } := by
            simp [step, registerStep_eq_some cfg s cid v f p hv2 (by omega) hp]
          rw [e]
          constructor
          · intro q c
            constructor
            · intro hq
              by_cases hqp : q = p
              · rw [hqp, lookupA_insertA_self] at hq
                injection hq with hqc
                refine ⟨{ publicPort := p, localPort := pyToInt v }, ?_, ?_⟩
                · rw [← hqc, lookupA_insertA_self]
                · exact hqp.symm
              · rw [lookupA_insertA_ne _ _ hqp] at hq
                obtain ⟨i, hi, hip⟩ := (hInv q c).mp hq
                by_cases hc : c = cid
                · rw [hc, hfr] at hi; exact absurd hi (by simp)
                · exact ⟨i, by rw [lookupA_insertA_ne _ _ hc]; exact hi, hip⟩
            · rintro ⟨i, hi, hip⟩
              by_cases hc : c = cid
              · rw [hc, lookupA_insertA_self] at hi
                injection hi with hii
                have hipq : p = q := by rw [← hii] at hip; exact hip
                rw [hc, ← hipq]
                exact lookupA_insertA_self p cid s.port_map
              · rw [lookupA_insertA_ne _ _ hc] at hi
                have hq := (hInv q c).mpr ⟨i, hi, hip⟩
                by_cases hqp : q = p
                · rw [hqp, hp3] at hq; exact absurd hq (by simp)
                · rw [lookupA_insertA_ne _ _ hqp]; exact hq
          · intro c i hi
            by_cases hc : c = cid
            · rw [hc, lookupA_insertA_self] at hi
              injection hi with hii
              rw [← hii]
              show 0 < p
              omega
            · rw [lookupA_insertA_ne _ _ hc] at hi
              exact hPos c i hi
  | mint owner rid => exact ⟨hInv, hPos⟩
  | timeout rid => exact ⟨hInv, hPos⟩
  | response cid rid frame =>
    obtain ⟨e1, e2⟩ := handleResponse_fst_fields s cid rid frame
    exact ⟨inv_congr s _ e1.symm e2.symm hInv, portsPos_congr s _ e1.symm hPos⟩
  | cleanup cid =>
    cases hcl : lookupA cid s.clients with
    | none =>
      have e : step cfg s (Op.cleanup cid) = s := by
        simp [step, cleanupClient_absent s cid hcl]
      rw [e]; exact ⟨hInv, hPos⟩
    | some info =>
      have hpm : lookupA info.publicPort s.port_map = Option.some cid :=
        (hInv info.publicPort cid).mpr ⟨info, hcl, rfl⟩
      have hpos : 0 < info.publicPort := hPos cid info hcl
      have e : step cfg s (Op.cleanup cid) =
          { clients := eraseA cid s.clients,
            port_map := eraseA info.publicPort s.port_map,
            pending := s.pending } := by
        simp [step,
          cleanupClient_present s cid info hcl (by omega) (by rw [hpm]; simp)]
      rw [e]
      constructor
      · intro q c
        constructor
        · intro hq
          by_cases hqp : q = info.publicPort
          · rw [hqp, lookupA_eraseA_self] at hq; exact absurd hq (by simp)
          · rw [lookupA_eraseA_ne _ hqp] at hq
            obtain ⟨i, hi, hip⟩ := (hInv q c).mp hq
            by_cases hc : c = cid
            · rw [hc, hcl] at hi
              injection hi with hii
              rw [← hii] at hip
              exact absurd hip.symm hqp
            · exact ⟨i, by rw [lookupA_eraseA_ne _ hc]; exact hi, hip⟩
        · rintro ⟨i, hi, hip⟩
          by_cases hc : c = cid
          · rw [hc, lookupA_eraseA_self] at hi; exact absurd hi (by simp)
          · rw [lookupA_eraseA_ne _ hc] at hi
            have hq := (hInv q c).mpr ⟨i, hi, hip⟩
            by_cases hqp : q = info.publicPort
            · rw [hqp, hpm] at hq
              injection hq with hqc
              exact absurd hqc.symm hc
            · rw [lookupA_eraseA_ne _ hqp]; exact hq
      · intro c i hi
        by_cases hc : c = cid
        · rw [hc, lookupA_eraseA_self] at hi; exact absurd hi (by simp)
        · rw [lookupA_eraseA_ne _ hc] at hi
          exact hPos c i hi

theorem runOps_preserves_inv (cfg : Config) (h0 : 0 < cfg.portStart) :
    ∀ (ops : List Op) (s : ServerState), Inv s → PortsPos s →
      FreshAlong cfg s ops = true →
      Inv (runOps cfg s ops) ∧ PortsPos (runOps cfg s ops) := by
  intro ops
  induction ops with
  | nil => intro s h1 h2 _; exact ⟨h1, h2⟩
  | cons op rest ih =>
    intro s h1 h2 hfr
    rw [FreshAlong, Bool.and_eq_true] at hfr
    have hstep := step_preserves_inv cfg h0 s op h1 h2 hfr.1
    exact ih (step cfg s op) hstep.1 hstep.2 hfr.2

theorem step_length_le (cfg : Config) (s : ServerState) (op : Op)
    (h : s.clients.length ≤ cfg.maxClients) :
    (step cfg s op).clients.length ≤ cfg.maxClients := by
  cases op with
  | register cid v f =>
    by_cases hv : validLocal v = false
    · have e : (step cfg s (Op.register cid v f)).clients = s.clients := by
        simp [step, registerStep_invalid cfg s cid v f hv]
      rw [e]; exact h
    · have hv2 : validLocal v = true := by
        cases hb : validLocal v
        · exact absurd hb hv
        · rfl
      by_cases hcap : cfg.maxClients ≤ s.clients.length
      · have e : (step cfg s (Op.register cid v f)).clients = s.clients := by
          simp [step, registerStep_capacity cfg s cid v f hv2 hcap]
        rw [e]; exact h
      · cases hp : firstFreePort cfg s.port_map f with
        | none =>
          have e : (step cfg s (Op.register cid v f)).clients = s.clients := by
            simp [step, registerStep_exhausted cfg s cid v f hv2 (by omega) hp]
          rw [e]; exact h
        | some p =>
          have e : (step cfg s (Op.register cid v f)).clients =
              insertA cid { publicPort := p, localPort := pyToInt v } s.clients := by
            simp [step, registerStep_eq_some cfg s cid v f p hv2 (by omega) hp]
          rw [e]
          have hle := length_insertA_le cid
            { publicPort := p, localPort := pyToInt v } s.clients
          omega
  | mint owner rid => exact h
  | timeout rid => exact h
  | response cid rid frame =>
    have e : (step cfg s (Op.response cid rid frame)).clients = s.clients :=
      (handleResponse_fst_fields s cid rid frame).1
    rw [e]; exact h
  | cleanup cid =>
    rcases cleanupClient_clients_eq s cid with e | e
    · have e2 : (step cfg s (Op.cleanup cid)).clients = s.clients := e
      rw [e2]; exact h
    · have e2 : (step cfg s (Op.cleanup cid)).clients = eraseA cid s.clients := e
      rw [e2]
      have hle := length_eraseA_le cid s.clients
      omega

theorem runOps_length_le (cfg : Config) :
    ∀ (ops : List Op) (s : ServerState), s.clients.length ≤ cfg.maxClients →
      (runOps cfg s ops).clients.length ≤ cfg.maxClients := by
  intro ops
  induction ops with
  | nil => intro s h; exact h
  | cons op rest ih =>
    intro s h
    exact ih (step cfg s op) (step_length_le cfg s op h)

/-! ### Shared concrete inputs for witnesses and counterexamples -/

/-- An OS probe that reports every port available. -/
def allFree : Nat → Bool := fun _ => true

def sampleFrame : RespFrame :=
  { status := Option.some 200, headers := [], body := Option.none }

/-- A state with one registered session and one in-flight pending entry
owned by it: the situation of spec scenario 5 (channel close mid-flight). -/
def c1state : ServerState :=
  { clients := [("c", { publicPort := 5000, localPort := 3000 })],
    port_map := [(5000, "c")],
    pending := [("r1", { owner := "c", done := false })] }

/-! ### Claims -/

/-- C1.  The claim says that session cleanup fails every pending entry the
session owns (so in-flight ingress requests answer 502).  In the source,
`cleanup_client` removes the session and its port but never touches the
`pending` registry: evaluated at a state with one in-flight entry owned by
the cleaned session, the entry survives cleanup untouched, so the waiter
is never resolved with a channel-closed error (the request later ends in
the 504 timeout path instead). -/
theorem c1_cleanup_ignores_pending :
    (cleanupClient c1state "c").pending =
      [("r1", { owner := "c", done := false })] ∧
    (cleanupClient c1state "c").pending = c1state.pending ∧
    lookupA "c" (cleanupClient c1state "c").clients = Option.none ∧
    lookupA 5000 (cleanupClient c1state "c").port_map = Option.none := by
  decide

/-- C7.  With at least `MAX_CLIENTS_PER_SERVER` live sessions, a valid
`register` is rejected with the at-capacity error before any port
allocation: the result is independent of the OS probe (no port is
probed), the state is returned unchanged (nothing leased), and the count
of live sessions never exceeds the limit along any operation sequence
from the empty state. -/
theorem c7_capacity (cfg : Config) (s : ServerState) (cid : String)
    (v : PyVal) (hv : validLocal v = true)
    (hcap : cfg.maxClients ≤ s.clients.length) :
    (∀ f, registerStep cfg s cid v f = (s, RegResult.atCapacity)) ∧
    (∀ ops, (runOps cfg emptyState ops).clients.length ≤ cfg.maxClients) := by
  refine ⟨fun f => registerStep_capacity cfg s cid v f hv hcap, fun ops => ?_⟩
  exact runOps_length_le cfg ops emptyState (Nat.zero_le _)

def cfg7 : Config := { portStart := 5000, portEnd := 5999, maxClients := 1 }

def s7 : ServerState :=
  { clients := [("a", { publicPort := 5000, localPort := 3000 })],
    port_map := [(5000, "a")], pending := [] }

theorem c7_witness :
    registerStep cfg7 s7 "b" (PyVal.int 4000) allFree =
      (s7, RegResult.atCapacity) ∧
    (runOps cfg7 emptyState
        [Op.register "a" (PyVal.int 3000) allFree,
         Op.register "b" (PyVal.int 4000) allFree]).clients.length ≤
      cfg7.maxClients := by
  have h := c7_capacity cfg7 s7 "b" (PyVal.int 4000) (by decide) (by decide)
  exact ⟨h.1 allFree, h.2 _⟩

/-- C10.  Teardown is idempotent: cleaning a client twice leaves the
shared state exactly as cleaning it once, and cleaning an absent client
id changes nothing. -/
theorem c10_cleanup_idempotent (s : ServerState) (cid : String) :
    cleanupClient (cleanupClient s cid) cid = cleanupClient s cid ∧
    (lookupA cid s.clients = Option.none → cleanupClient s cid = s) := by
  refine ⟨?_, fun h => cleanupClient_absent s cid h⟩
  exact cleanupClient_absent (cleanupClient s cid) cid
    (cleanupClient_lookup_none s cid)

def s10 : ServerState :=
  { clients := [("c", { publicPort := 5000, localPort := 3000 })],
    port_map := [(5000, "c")],
    pending := [("r1", { owner := "c", done := false })] }

theorem c10_witness :
    cleanupClient (cleanupClient s10 "c") "c" = cleanupClient s10 "c" ∧
    cleanupClient emptyState "c" = emptyState := by
  exact ⟨(c10_cleanup_idempotent s10 "c").1,
         (c10_cleanup_idempotent emptyState "c").2 (by decide)⟩

/-- The state after one successful registration of client `c` on the
default configuration: port 5000 leased. -/
def s2base : ServerState :=
  (registerStep defaultConfig emptyState "c" (PyVal.int 3000) allFree).1

/-- C2 counterexample.  The claim says a second `register` on an
already-registered channel allocates no new public port and leaves the
port lease and registry entries unchanged.  In the source the `register`
branch runs the full allocation path again: starting from a state where
client `c` holds port 5000, a second `register` replies
`registered 5001`, overwrites the `clients` entry of `c` to port 5001,
and leaves the old entry `5000 ↦ c` stranded in `port_map`. -/
theorem c2_counterexample :
    lookupA "c" s2base.clients =
      Option.some { publicPort := 5000, localPort := 3000 } ∧
    (registerStep defaultConfig s2base "c" (PyVal.int 3000) allFree).2 =
      RegResult.registered 5001 ∧
    lookupA "c"
        (registerStep defaultConfig s2base "c" (PyVal.int 3000) allFree).1.clients =
      Option.some { publicPort := 5001, localPort := 3000 } ∧
    lookupA 5000
        (registerStep defaultConfig s2base "c" (PyVal.int 3000) allFree).1.port_map =
      Option.some "c" := by
  decide

/-- C2 amended.  A second `register` frame from a registered session is
processed exactly like a first one: a fresh port `p` (not currently
leased) is allocated and indexed to the client, the `clients` entry is
overwritten to `p`, the reply is `registered p`, and every other
`port_map` entry — in particular the stale lease of the old port — is
left in place. -/
theorem c2_reregister_reallocates (cfg : Config) (s : ServerState)
    (cid : String) (v : PyVal) (f : Nat → Bool) (i : ClientInfo) (p : Nat)
    (hreg : lookupA cid s.clients = Option.some i)
    (hv : validLocal v = true) (hcap : s.clients.length < cfg.maxClients)
    (hp : firstFreePort cfg s.port_map f = Option.some p) :
    (registerStep cfg s cid v f).2 = RegResult.registered p ∧
    lookupA cid (registerStep cfg s cid v f).1.clients =
      Option.some { publicPort := p, localPort := pyToInt v } ∧
    lookupA p (registerStep cfg s cid v f).1.port_map = Option.some cid ∧
    lookupA p s.port_map = Option.none ∧
    (∀ q, q ≠ p → lookupA q (registerStep cfg s cid v f).1.port_map =
        lookupA q s.port_map) := by
  have e := registerStep_eq_some cfg s cid v f p hv hcap hp
  have hfree := (firstFreePort_some cfg s.port_map f p hp).2.2.1
  refine ⟨by rw [e], ?_, ?_, hfree, ?_⟩
  · rw [e]
    exact lookupA_insertA_self cid
      { publicPort := p, localPort := pyToInt v } s.clients
  · rw [e]
    exact lookupA_insertA_self p cid s.port_map
  · intro q hq
    rw [e]
    exact lookupA_insertA_ne cid s.port_map hq

theorem c2_witness :
    (registerStep defaultConfig s2base "c" (PyVal.int 3000) allFree).2 =
      RegResult.registered 5001 ∧
    lookupA "c"
        (registerStep defaultConfig s2base "c" (PyVal.int 3000) allFree).1.clients =
      Option.some { publicPort := 5001, localPort := 3000 } ∧
    lookupA 5001
        (registerStep defaultConfig s2base "c" (PyVal.int 3000) allFree).1.port_map =
      Option.some "c" ∧
    lookupA 5001 s2base.port_map = Option.none ∧
    lookupA 5000
        (registerStep defaultConfig s2base "c" (PyVal.int 3000) allFree).1.port_map =
      lookupA 5000 s2base.port_map := by
  have h := c2_reregister_reallocates defaultConfig s2base "c" (PyVal.int 3000)
    allFree { publicPort := 5000, localPort := 3000 } 5001
    (by decide) (by decide) (by decide) (by decide)
  exact ⟨h.1, h.2.1, h.2.2.1, h.2.2.2.1, h.2.2.2.2 5000 (by decide)⟩

/-- The operation list refuting C3: the same client id registers twice. -/
def doubleReg : List Op :=
  [Op.register "c" (PyVal.int 3000) allFree,
   Op.register "c" (PyVal.int 3000) allFree]

/-- C3 counterexample.  The claimed invariant is not preserved by every
operation from the empty state: after a duplicate `register` of the same
client id, `port_map` still holds `5000 ↦ c` while the only live session
`c` has public port 5001, so the key 5000 of `port_map` corresponds to no
live session with that port. -/
theorem c3_counterexample :
    ¬ Inv (runOps defaultConfig emptyState doubleReg) := by
  intro h
  have h1 : lookupA 5000 (runOps defaultConfig emptyState doubleReg).port_map =
      Option.some "c" := by decide
  obtain ⟨i, hi, hip⟩ := (h 5000 "c").mp h1
  have h2 : lookupA "c" (runOps defaultConfig emptyState doubleReg).clients =
      Option.some { publicPort := 5001, localPort := 3000 } := by decide
  rw [h2] at hi
  injection hi with hii
  rw [← hii] at hip
  exact absurd hip (by decide)

/-- C3 amended.  The invariant does hold for every operation sequence
from the empty state in which no `register` is processed for a client id
that is already live (`FreshAlong`), for any configuration whose port
range starts above 0 (as the default 5000 does): distinct live sessions
have distinct public ports (distinct client ids are inherent to the keyed
registry), and a port is a key of `port_map` iff some live session has it
as its public port, with the index entry pointing to that session. -/
theorem c3_registry_invariant (cfg : Config) (ops : List Op)
    (h0 : 0 < cfg.portStart)
    (hfr : FreshAlong cfg emptyState ops = true) :
    Inv (runOps cfg emptyState ops) ∧
    ∀ c1 c2 i1 i2,
      lookupA c1 (runOps cfg emptyState ops).clients = Option.some i1 →
      lookupA c2 (runOps cfg emptyState ops).clients = Option.some i2 →
      i1.publicPort = i2.publicPort → c1 = c2 := by
  obtain ⟨hInv, _⟩ :=
    runOps_preserves_inv cfg h0 ops emptyState inv_empty portsPos_empty hfr
  refine ⟨hInv, ?_⟩
  intro c1 c2 i1 i2 h1 h2 hp
  have k1 := (hInv i1.publicPort c1).mpr ⟨i1, h1, rfl⟩
  have k2 := (hInv i1.publicPort c2).mpr ⟨i2, h2, hp.symm⟩
  rw [k1] at k2
  exact Option.some.inj k2

def opsW3 : List Op :=
  [Op.register "a" (PyVal.int 3000) allFree,
   Op.register "b" (PyVal.int 4000) allFree,
   Op.cleanup "a"]

theorem c3_witness :
    lookupA 5001 (runOps defaultConfig emptyState opsW3).port_map =
      Option.some "b" := by
  have h := c3_registry_invariant defaultConfig opsW3 (by decide) (by decide)
  exact (h.1 5001 "b").mpr
    ⟨{ publicPort := 5001, localPort := 4000 }, by decide, rfl⟩

/-- C4.  The pending registry is process-global and the `response` branch
of `ws_handler` dispatches on `request_id` alone, never consulting which
control channel delivered the frame: with two distinct live sessions `a`
and `b` and a pending entry minted for `a`, a `response` frame arriving
on the channel of `b` resolves the waiter of `a`, handing the payload to
the requester of `a`, and the outcome is identical to the frame arriving
on the channel of `a`. -/
theorem c4_dispatch_by_id_only (s : ServerState) (a b rid : String)
    (frame : RespFrame) (ia ib : ClientInfo)
    (ha : lookupA a s.clients = Option.some ia)
    (hb : lookupA b s.clients = Option.some ib) (hab : a ≠ b)
    (hp : lookupA rid s.pending = Option.some { owner := a, done := false }) :
    handleResponse s b rid frame =
      ({ s with pending := eraseA rid s.pending }, Option.some (a, frame)) ∧
    handleResponse s b rid frame = handleResponse s a rid frame := by
  refine ⟨?_, ?_⟩ <;> simp [handleResponse, hp]

def s4 : ServerState :=
  { clients := [("a", { publicPort := 5000, localPort := 3000 }),
                ("b", { publicPort := 5001, localPort := 4000 })],
    port_map := [(5000, "a"), (5001, "b")],
    pending := [("r1", { owner := "a", done := false })] }

theorem c4_witness :
    handleResponse s4 "b" "r1" sampleFrame =
      ({ s4 with pending := eraseA "r1" s4.pending },
       Option.some ("a", sampleFrame)) ∧
    handleResponse s4 "b" "r1" sampleFrame =
      handleResponse s4 "a" "r1" sampleFrame := by
  exact c4_dispatch_by_id_only s4 "a" "b" "r1" sampleFrame
    { publicPort := 5000, localPort := 3000 }
    { publicPort := 5001, localPort := 4000 }
    (by decide) (by decide) (by decide) (by decide)

/-- C5 counterexample.  The claim says an `error` reply is sent, and no
port allocated, exactly when `local_port` is not an integer in
`[1, 65535]`.  The source checks only `not local_port or not
isinstance(local_port, int)`: the out-of-range integer 70000 passes
validation, a port is allocated and leased, and the reply is
`registered 5000` — refuting the claimed iff. -/
theorem c5_counterexample :
    (registerStep defaultConfig emptyState "c" (PyVal.int 70000) allFree).2 =
      RegResult.registered 5000 ∧
    lookupA 5000
        (registerStep defaultConfig emptyState "c" (PyVal.int 70000) allFree).1.port_map =
      Option.some "c" ∧
    ¬ ((70000 : Int) ≤ 65535) := by
  decide

/-- C5 amended.  The server replies with the invalid-port `error` frame,
leaving the state untouched, iff `local_port` is falsy or not an `int`
(missing, `None`, `0`, or a string); the range `[1, 65535]` is never
checked, so every nonzero integer — including negatives and values above
65535 — passes validation and continues to the capacity and allocation
steps. -/
theorem c5_validation (cfg : Config) (s : ServerState) (cid : String)
    (v : PyVal) (f : Nat → Bool) :
    ((registerStep cfg s cid v f).2 = RegResult.invalidPort ↔
        validLocal v = false) ∧
    (validLocal v = false →
        registerStep cfg s cid v f = (s, RegResult.invalidPort)) ∧
    (∀ n : Int, n ≠ 0 → validLocal (PyVal.int n) = true) ∧
    validLocal PyVal.none = false ∧
    validLocal (PyVal.int 0) = false ∧
    (∀ t : String, validLocal (PyVal.str t) = false) := by
  refine ⟨⟨?_, ?_⟩, ?_, ?_, ?_, ?_, ?_⟩
  · intro hres
    cases hb : validLocal v
    · rfl
    · exfalso
      by_cases hcap : cfg.maxClients ≤ s.clients.length
      · rw [registerStep_capacity cfg s cid v f hb hcap] at hres
        exact absurd hres (by simp)
      · cases hp : firstFreePort cfg s.port_map f with
        | none =>
          rw [registerStep_exhausted cfg s cid v f hb (by omega) hp] at hres
          exact absurd hres (by simp)
        | some p =>
          rw [registerStep_eq_some cfg s cid v f p hb (by omega) hp] at hres
          exact absurd hres (by simp)
  · intro hv; rw [registerStep_invalid cfg s cid v f hv]
  · intro hv; exact registerStep_invalid cfg s cid v f hv
  · intro n hn; simp [validLocal, pyTruthy, pyIsInt, hn]
  · rfl
  · rfl
  · intro t; simp [validLocal, pyIsInt]

theorem c5_witness :
    registerStep defaultConfig emptyState "c" PyVal.none allFree =
      (emptyState, RegResult.invalidPort) ∧
    validLocal (PyVal.int 70000) = true ∧
    validLocal (PyVal.int 0) = false := by
  have h := c5_validation defaultConfig emptyState "c" PyVal.none allFree
  have h2 := c5_validation defaultConfig emptyState "c" (PyVal.int 70000) allFree
  exact ⟨h.2.1 (by decide), h2.2.2.1 70000 (by decide), h.2.2.2.2.1⟩

/-- C6.  Port acquisition scans `[PUBLIC_PORT_START, PUBLIC_PORT_END]`
in ascending order and returns the smallest port neither leased in
`port_map` nor reported busy by the OS probe; on success the port is
added to the leased set together with the `registered` reply, and the
ports-exhausted error is produced exactly when no port in the range
passes both checks. -/
theorem c6_port_allocation (cfg : Config) (s : ServerState) (cid : String)
    (v : PyVal) (f : Nat → Bool) (hv : validLocal v = true)
    (hcap : s.clients.length < cfg.maxClients) :
    (∀ p, firstFreePort cfg s.port_map f = Option.some p →
        cfg.portStart ≤ p ∧ p ≤ cfg.portEnd ∧
        lookupA p s.port_map = Option.none ∧ f p = true ∧
        (∀ q, cfg.portStart ≤ q → q < p →
            (lookupA q s.port_map ≠ Option.none ∨ f q = false)) ∧
        (registerStep cfg s cid v f).2 = RegResult.registered p ∧
        lookupA p (registerStep cfg s cid v f).1.port_map = Option.some cid) ∧
    (firstFreePort cfg s.port_map f = Option.none ↔
        ∀ q, cfg.portStart ≤ q → q ≤ cfg.portEnd →
          (lookupA q s.port_map ≠ Option.none ∨ f q = false)) ∧
    (firstFreePort cfg s.port_map f = Option.none →
        registerStep cfg s cid v f = (s, RegResult.exhausted)) := by
  refine ⟨?_, firstFreePort_none cfg s.port_map f,
    fun hp => registerStep_exhausted cfg s cid v f hv hcap hp⟩
  intro p hp
  obtain ⟨h1, h2, h3, h4, h5⟩ := firstFreePort_some cfg s.port_map f p hp
  have e := registerStep_eq_some cfg s cid v f p hv hcap hp
  refine ⟨h1, h2, h3, h4, h5, by rw [e], ?_⟩
  rw [e]
  exact lookupA_insertA_self p cid s.port_map

def cfg6 : Config := { portStart := 5000, portEnd := 5002, maxClients := 10 }

def cfg6e : Config := { portStart := 5000, portEnd := 5000, maxClients := 10 }

def s6 : ServerState :=
  { clients := [("x", { publicPort := 5000, localPort := 3000 })],
    port_map := [(5000, "x")], pending := [] }

/-- An OS probe reporting port 5001 as busy. -/
def f6 : Nat → Bool := fun q => decide (q ≠ 5001)

theorem c6_witness :
    cfg6.portStart ≤ 5002 ∧ 5002 ≤ cfg6.portEnd ∧
    lookupA 5002 s6.port_map = Option.none ∧ f6 5002 = true ∧
    (lookupA 5000 s6.port_map ≠ Option.none ∨ f6 5000 = false) ∧
    (lookupA 5001 s6.port_map ≠ Option.none ∨ f6 5001 = false) ∧
    (registerStep cfg6 s6 "c" (PyVal.int 3000) f6).2 =
      RegResult.registered 5002 ∧
    lookupA 5002 (registerStep cfg6 s6 "c" (PyVal.int 3000) f6).1.port_map =
      Option.some "c" ∧
    registerStep cfg6e s6 "c" (PyVal.int 3000) f6 =
      (s6, RegResult.exhausted) := by
  have h := (c6_port_allocation cfg6 s6 "c" (PyVal.int 3000) f6
    (by decide) (by decide)).1 5002 (by decide)
  have he := (c6_port_allocation cfg6e s6 "c" (PyVal.int 3000) f6
    (by decide) (by decide)).2.2 (by decide)
  exact ⟨h.1, h.2.1, h.2.2.1, h.2.2.2.1,
         h.2.2.2.2.1 5000 (by decide) (by decide),
         h.2.2.2.2.1 5001 (by decide) (by decide),
         h.2.2.2.2.2.1, h.2.2.2.2.2.2, he⟩

/-- C8.  A `response` frame whose `request_id` is not in the pending
registry is a no-op (the state is returned unchanged and no waiter is
resolved), and after any `response` frame is processed its id is gone
from the registry, so a repeated or late frame for the same id resolves
nothing: every pending handle is resolved at most once. -/
theorem c8_late_response_noop (s : ServerState) (cid rid : String)
    (frame : RespFrame) :
    (lookupA rid s.pending = Option.none →
        handleResponse s cid rid frame = (s, Option.none)) ∧
    (∀ cid2 frame2,
        handleResponse (handleResponse s cid rid frame).1 cid2 rid frame2 =
          ((handleResponse s cid rid frame).1, Option.none)) := by
  refine ⟨fun h => handleResponse_absent s cid rid frame h,
    fun cid2 frame2 => ?_⟩
  exact handleResponse_absent _ cid2 rid frame2
    (handleResponse_pending_gone s cid rid frame)

def s8 : ServerState :=
  { clients := [], port_map := [],
    pending := [("r1", { owner := "c", done := false })] }

theorem c8_witness :
    handleResponse emptyState "c" "r1" sampleFrame =
      (emptyState, Option.none) ∧
    handleResponse (handleResponse s8 "c" "r1" sampleFrame).1 "c" "r1"
        sampleFrame =
      ((handleResponse s8 "c" "r1" sampleFrame).1, Option.none) := by
  exact ⟨(c8_late_response_noop emptyState "c" "r1" sampleFrame).1 (by decide),
         (c8_late_response_noop s8 "c" "r1" sampleFrame).2 "c" sampleFrame⟩

/-- C9 counterexample.  The claim says hop-by-hop header names are
matched case-insensitively when stripped.  The source strips them with
`dict.pop`, which compares exactly: a `content-length` header in
lowercase survives the sanitization (while the exact casing
`Content-Length` is removed). -/
theorem c9_counterexample :
    buildResponse { status := Option.some 200,
                    headers := [("content-length", "5")],
                    body := Option.some "" } =
      Option.some { status := 200,
                    headers := [("content-length", "5")], body := [] } ∧
    buildResponse { status := Option.some 200,
                    headers := [("Content-Length", "5")],
                    body := Option.some "" } =
      Option.some { status := 200, headers := [], body := [] } := by
  decide

/-- C9 amended.  For every response frame whose body decodes, the emitted
HTTP response carries the frame status (default 200), the base64-decoded
body, and the frame headers with the exact-cased names
`Transfer-Encoding`, `Content-Length`, `Content-Encoding`, `Connection`
removed; the matching is case-sensitive, so any other casing of these
names passes through unchanged. -/
theorem c9_build_response (r : RespFrame) (bs : List Nat)
    (h : respBody r = Option.some bs) :
    buildResponse r =
      Option.some { status := (r.status).getD 200,
                    headers := stripHop r.headers, body := bs } ∧
    (∀ name, name ∈ hopHeaders →
        lookupA name (stripHop r.headers) = Option.none) ∧
    (∀ name, ¬ name ∈ hopHeaders →
        lookupA name (stripHop r.headers) = lookupA name r.headers) := by
  refine ⟨?_, ?_, ?_⟩
  · rw [buildResponse, h]; rfl
  · intro name hn; rw [lookupA_stripHop, if_pos hn]
  · intro name hn; rw [lookupA_stripHop, if_neg hn]

def r9 : RespFrame :=
  { status := Option.some 201,
    headers := [("X-Tag", "1"), ("Content-Length", "2"),
                ("transfer-encoding", "x")],
    body := Option.some "aGk=" }

theorem c9_witness :
    buildResponse r9 =
      Option.some { status := 201, headers := stripHop r9.headers,
                    body := [104, 105] } ∧
    lookupA "Content-Length" (stripHop r9.headers) = Option.none ∧
    lookupA "transfer-encoding" (stripHop r9.headers) =
      Option.some "x" := by
  have h := c9_build_response r9 [104, 105] (by decide)
  refine ⟨h.1, h.2.1 "Content-Length" (by decide), ?_⟩
  rw [h.2.2 "transfer-encoding" (by decide)]
  decide

end OnlineCli
